import Mathlib

/-
  Verification development for the auto_trade trading system.

  Shallow embedding conventions:
  * `rust_decimal::Decimal` and `f64` are modelled as `ℚ` (exact arithmetic;
    the spec's numeric properties are stated up to floating-point tolerance,
    which exact rational equality implies).
  * timestamps (`i64`) are modelled as `ℤ`.
  * fallible Rust functions returning `Result` are modelled with `Except`.
  * calls to the exchange collaborator (`place_order`, `get_balance`) are
    external I/O; each embedded operation takes the collaborator's response
    as an explicit `Except` argument.
  * `std::collections::HashMap<String, Position>` is modelled as an
    association list with insert-replaces-key semantics (`posInsert`,
    `posRemove`, `posLookup`); the key-uniqueness of the hash map is proved
    as an invariant rather than assumed by the type.
-/

set_option autoImplicit false

namespace AutoTrade

/-! ## Domain models (src/domain/models.rs) -/

inductive OrderSide where
  | Buy
  | Sell
  deriving DecidableEq, Repr

inductive TradeAction where
  | Buy
  | Sell
  | Hold
  deriving DecidableEq, Repr

inductive OrderType where
  | Market
  | Limit (price : ℚ)
  | Stop (price : ℚ)
  | StopLimit (stop_price : ℚ) (limit_price : ℚ)
  deriving DecidableEq, Repr

inductive OrderStatus where
  | New
  | Filled
  | PartiallyFilled
  | Canceled
  | Rejected
  | Pending
  deriving DecidableEq, Repr

structure Order where
  symbol : String
  quantity : ℚ
  order_type : OrderType
  side : OrderSide
  client_order_id : Option String
  timestamp : ℤ
  deriving DecidableEq, Repr

structure OrderResponse where
  order_id : String
  client_order_id : Option String
  status : OrderStatus
  filled_quantity : ℚ
  average_price : Option ℚ
  timestamp : ℤ
  deriving DecidableEq, Repr

/-- Embeds `IndicatorValue {name, value}` attached to a signal. -/
structure IndicatorValue where
  name : String
  value : ℚ
  deriving DecidableEq, Repr

/-- Embeds `TradingSignal`; `confidence : f64` is modelled as an exact rational
(the engine converts it with `Decimal::from_f64(..).unwrap_or(ONE)`, which
is the identity for any finite representable value). -/
structure TradingSignal where
  symbol : String
  action : TradeAction
  price : ℚ
  confidence : ℚ
  timestamp : ℤ
  indicators : List IndicatorValue
  deriving DecidableEq, Repr

/-! ## Error types (src/domain/errors.rs) -/

inductive AnalysisError where
  | IndicatorCalculation (msg : String)
  | InsufficientData (msg : String)
  | PatternDetection (msg : String)
  deriving DecidableEq, Repr

inductive TradingError where
  | Strategy (msg : String)
  | RiskManagement (msg : String)
  | OrderExecution (msg : String)
  deriving DecidableEq, Repr

/-! ## Indicator engine (src/analysis/indicatiors.rs)

Rust slice indexing `prices[i]` is modelled as `List.getD prices i 0`;
every embedded loop indexes in bounds exactly where the source does. -/

/-- The sliding-window loop of `calculate_sma`
(`for i in period..prices.len() { sum = sum - prices[i-period] + prices[i]; result.push(sum / period) }`). -/
def smaGo (prices : List ℚ) (period : ℕ) (i : ℕ) (sum : ℚ) : List ℚ :=
  if i < prices.length then
    let sum2 := sum - prices.getD (i - period) 0 + prices.getD i 0
    (sum2 / (period : ℚ)) :: smaGo prices period (i + 1) sum2
  else
    []
termination_by prices.length - i
decreasing_by simp_wf; omega

/-- Embeds `calculate_sma`: guard, then first window mean, then the O(1) sliding window. -/
def calculate_sma (prices : List ℚ) (period : ℕ) : Except AnalysisError (List ℚ) :=
  if prices.length < period then
    .error (.InsufficientData
      ("Not enough data for SMA calculation. Need at least " ++ toString period
        ++ " points, got " ++ toString prices.length))
  else
    let sum := (prices.take period).sum
    .ok ((sum / (period : ℚ)) :: smaGo prices period period sum)

/-- The EMA recurrence loop of `calculate_ema`
(`new_ema = (prices[i] - previous_ema) * multiplier + previous_ema`). -/
def emaGo (prices : List ℚ) (multiplier : ℚ) (i : ℕ) (prev : ℚ) : List ℚ :=
  if i < prices.length then
    let e := (prices.getD i 0 - prev) * multiplier + prev
    e :: emaGo prices multiplier (i + 1) e
  else
    []
termination_by prices.length - i
decreasing_by simp_wf; omega

/-- The successful-path value of `calculate_ema`: SMA seed of the first
`period` prices followed by the exponential recurrence with factor
`2/(period+1)`. -/
def emaList (prices : List ℚ) (period : ℕ) : List ℚ :=
  let multiplier := 2 / ((period : ℚ) + 1)
  let first_sma := (prices.take period).sum / (period : ℚ)
  first_sma :: emaGo prices multiplier period first_sma

/-- Embeds `calculate_ema`. -/
def calculate_ema (prices : List ℚ) (period : ℕ) : Except AnalysisError (List ℚ) :=
  if prices.length < period then
    .error (.InsufficientData
      ("Not enough data for EMA calculation. Need at least " ++ toString period
        ++ " points, got " ++ toString prices.length))
  else
    .ok (emaList prices period)

/-- Embeds `f64::EPSILON`. -/
def f64_epsilon : ℚ := 1 / 2 ^ 52

/-- The Wilder smoothing loop of `calculate_rsi`
(`avg = (avg*(period-1) + delta)/period` over indices `period..gains.len()`). -/
def rsiSmooth (gains losses : List ℚ) (period : ℕ) (i : ℕ) (cg cl : ℚ) : ℚ × ℚ :=
  if i < gains.length then
    rsiSmooth gains losses period (i + 1)
      ((cg * ((period : ℚ) - 1) + gains.getD i 0) / (period : ℚ))
      ((cl * ((period : ℚ) - 1) + losses.getD i 0) / (period : ℚ))
  else
    (cg, cl)
termination_by gains.length - i
decreasing_by simp_wf; omega

/-- Embeds `calculate_rsi`. -/
def calculate_rsi (prices : List ℚ) (period : ℕ) : Except AnalysisError ℚ :=
  if prices.length ≤ period then
    .error (.InsufficientData
      ("Not enough data for RSI calculation. Need at least " ++ toString (period + 1)
        ++ " points, got " ++ toString prices.length))
  else
    let changes := (List.range (prices.length - 1)).map
      (fun i => prices.getD (i + 1) 0 - prices.getD i 0)
    let gains := changes.map (fun c => if 0 < c then c else 0)
    let losses := changes.map (fun c => if 0 < c then 0 else -c)
    let avg_gain := (gains.take period).sum / (period : ℚ)
    let avg_loss := (losses.take period).sum / (period : ℚ)
    let smoothed := rsiSmooth gains losses period period avg_gain avg_loss
    if |smoothed.2| < f64_epsilon then
      .ok 100
    else
      .ok (100 - 100 / (1 + smoothed.1 / smoothed.2))

/-- Embeds `calculate_macd`: EMAs, alignment by dropping the leading
`slow_period - fast_period` points of the fast EMA, MACD line, signal line,
histogram via pairwise zip. -/
def calculate_macd (prices : List ℚ) (fast_period slow_period signal_period : ℕ) :
    Except AnalysisError (List ℚ × List ℚ × List ℚ) :=
  if prices.length < slow_period + signal_period then
    .error (.InsufficientData
      ("Not enough data for MACD calculation. Need at least "
        ++ toString (slow_period + signal_period) ++ " points, got "
        ++ toString prices.length))
  else do
    let fast_ema ← calculate_ema prices fast_period
    let slow_ema ← calculate_ema prices slow_period
    let offset := slow_period - fast_period
    let aligned_fast_ema := if 0 < offset then fast_ema.drop offset else fast_ema
    let macd_line := (List.range slow_ema.length).map
      (fun i => aligned_fast_ema.getD i 0 - slow_ema.getD i 0)
    let signal_line ← calculate_ema macd_line signal_period
    let histogram := macd_line.zipWith (fun m s => m - s) signal_line
    return (macd_line, signal_line, histogram)

/-- Embeds `calculate_bollinger_bands`; `f64::sqrt` has no exact counterpart on ℚ,
so the square-root function is a parameter of the embedding. -/
def calculate_bollinger_bands (sqrtFn : ℚ → ℚ) (prices : List ℚ) (period : ℕ)
    (std_dev_multiplier : ℚ) : Except AnalysisError (List ℚ × List ℚ × List ℚ) :=
  if prices.length < period then
    .error (.InsufficientData
      ("Not enough data for Bollinger Bands calculation. Need at least "
        ++ toString period ++ " points, got " ++ toString prices.length))
  else do
    let sma ← calculate_sma prices period
    let bands := (List.range sma.length).map (fun i =>
      let middle := sma.getD i 0
      let window := (prices.drop i).take period
      let variance := (window.map (fun x => (x - middle) ^ 2)).sum / (period : ℚ)
      let std_dev := sqrtFn variance
      (middle + std_dev_multiplier * std_dev, middle - std_dev_multiplier * std_dev))
    return (bands.map Prod.fst, sma, bands.map Prod.snd)

/-- The Wilder smoothing loop of `calculate_atr`
(`new_atr = (prev*(period-1) + tr)/period`). -/
def atrGo (true_ranges : List ℚ) (period : ℕ) (i : ℕ) (prev : ℚ) : List ℚ :=
  if i < true_ranges.length then
    let a := (prev * ((period : ℚ) - 1) + true_ranges.getD i 0) / (period : ℚ)
    a :: atrGo true_ranges period (i + 1) a
  else
    []
termination_by true_ranges.length - i
decreasing_by simp_wf; omega

/-- Embeds `calculate_atr`. -/
def calculate_atr (high_prices low_prices close_prices : List ℚ) (period : ℕ) :
    Except AnalysisError (List ℚ) :=
  if high_prices.length < period + 1 ∨ low_prices.length < period + 1
      ∨ close_prices.length < period + 1 then
    .error (.InsufficientData
      ("Not enough data for ATR calculation. Need at least " ++ toString (period + 1)
        ++ " points, got "
        ++ toString (min (min high_prices.length low_prices.length) close_prices.length)))
  else
    let true_ranges := (List.range (high_prices.length - 1)).map (fun i =>
      let tr1 := high_prices.getD (i + 1) 0 - low_prices.getD (i + 1) 0
      let tr2 := |high_prices.getD (i + 1) 0 - close_prices.getD i 0|
      let tr3 := |low_prices.getD (i + 1) 0 - close_prices.getD i 0|
      max (max tr1 tr2) tr3)
    let first_atr := (true_ranges.take period).sum / (period : ℚ)
    .ok (first_atr :: atrGo true_ranges period period first_atr)

/-- Embeds `calculate_stochastic`; the `%K` window folds start from
`f64::NEG_INFINITY` / `f64::INFINITY`, which have no counterpart on ℚ, so the
two fold seeds are parameters of the embedding. -/
def calculate_stochastic (neg_infinity pos_infinity : ℚ)
    (high_prices low_prices close_prices : List ℚ) (k_period d_period : ℕ) :
    Except AnalysisError (List ℚ × List ℚ) :=
  if high_prices.length < k_period ∨ low_prices.length < k_period
      ∨ close_prices.length < k_period then
    .error (.InsufficientData
      ("Not enough data for Stochastic calculation. Need at least " ++ toString k_period
        ++ " points, got "
        ++ toString (min (min high_prices.length low_prices.length) close_prices.length)))
  else do
    let k_values := (List.range (close_prices.length - k_period + 1)).map (fun i =>
      let window_high := ((high_prices.drop i).take k_period).foldl max neg_infinity
      let window_low := ((low_prices.drop i).take k_period).foldl min pos_infinity
      let current_close := close_prices.getD (i + k_period - 1) 0
      if 0 < window_high - window_low then
        100 * (current_close - window_low) / (window_high - window_low)
      else
        50)
    let d_values ← calculate_sma k_values d_period
    return (k_values, d_values)

/-- The accumulation loop of `calculate_obv`. -/
def obvGo (close_prices volumes : List ℚ) (i : ℕ) (prev : ℚ) : List ℚ :=
  if i < close_prices.length then
    let cur :=
      if close_prices.getD (i - 1) 0 < close_prices.getD i 0 then
        prev + volumes.getD i 0
      else if close_prices.getD i 0 < close_prices.getD (i - 1) 0 then
        prev - volumes.getD i 0
      else
        prev
    cur :: obvGo close_prices volumes (i + 1) cur
  else
    []
termination_by close_prices.length - i
decreasing_by simp_wf; omega

/-- Embeds `calculate_obv`. -/
def calculate_obv (close_prices volumes : List ℚ) : Except AnalysisError (List ℚ) :=
  if close_prices.length < 2 ∨ volumes.length < close_prices.length then
    .error (.InsufficientData
      ("Not enough data for OBV calculation. Need at least 2 price points, got "
        ++ toString close_prices.length))
  else
    .ok (volumes.getD 0 0 :: obvGo close_prices volumes 1 (volumes.getD 0 0))

/-- The naive per-window recomputation the spec compares the sliding SMA
against: the arithmetic mean of `prices[i..i+period]` for each window start. -/
def naive_sma (prices : List ℚ) (period : ℕ) : List ℚ :=
  (List.range (prices.length - period + 1)).map
    (fun i => ((prices.drop i).take period).sum / (period : ℚ))

/-- Proof helper: the sum of the length-`n` window of `l` starting at `i`,
written positionally. -/
def windowSum (l : List ℚ) (n i : ℕ) : ℚ :=
  ((List.range n).map (fun k => l.getD (i + k) 0)).sum

/-! ## Execution engine (src/trading/execution.rs) -/

/-- Embeds `RiskParameters`. -/
structure RiskParameters where
  max_position_size : ℚ
  max_order_size : ℚ
  max_daily_loss : ℚ
  stop_loss_percent : ℚ
  take_profit_percent : ℚ
  max_open_positions : ℕ
  max_trades_per_day : ℕ
  deriving DecidableEq, Repr

/-- Embeds `RiskParameters::default()`. -/
def RiskParameters.default' : RiskParameters :=
  { max_position_size := 500
    max_order_size := 100
    max_daily_loss := 100
    stop_loss_percent := 5
    take_profit_percent := 10
    max_open_positions := 5
    max_trades_per_day := 10 }

/-- Embeds `Position`. -/
structure Position where
  symbol : String
  side : OrderSide
  quantity : ℚ
  entry_price : ℚ
  current_price : ℚ
  unrealized_pnl : ℚ
  stop_loss : Option ℚ
  take_profit : Option ℚ
  open_time : ℤ
  last_update : ℤ
  deriving DecidableEq, Repr

/-- Embeds `Position::new`. -/
def Position.new (symbol : String) (side : OrderSide) (quantity price : ℚ)
    (timestamp : ℤ) : Position :=
  { symbol := symbol
    side := side
    quantity := quantity
    entry_price := price
    current_price := price
    unrealized_pnl := 0
    stop_loss := none
    take_profit := none
    open_time := timestamp
    last_update := timestamp }

/-- Embeds `Position::calculate_pnl`; `chrono::Utc::now()` is passed in as `now`. -/
def Position.calculate_pnl (p : Position) (current_price : ℚ) (now : ℤ) : Position :=
  let price_diff :=
    match p.side with
    | OrderSide.Buy => current_price - p.entry_price
    | OrderSide.Sell => p.entry_price - current_price
  { p with
      current_price := current_price
      last_update := now
      unrealized_pnl := price_diff * p.quantity }

/-- Embeds `Position::should_close`. -/
def Position.should_close (p : Position) : Bool :=
  match p.side with
  | OrderSide.Buy =>
      (p.stop_loss.any fun sl => decide (p.current_price ≤ sl))
        || (p.take_profit.any fun tp => decide (tp ≤ p.current_price))
  | OrderSide.Sell =>
      (p.stop_loss.any fun sl => decide (sl ≤ p.current_price))
        || (p.take_profit.any fun tp => decide (p.current_price ≤ tp))

/-- Embeds `Trade`. -/
structure Trade where
  id : String
  symbol : String
  side : OrderSide
  quantity : ℚ
  price : ℚ
  timestamp : ℤ
  pnl : Option ℚ
  entry_order_id : String
  exit_order_id : Option String
  deriving DecidableEq, Repr

/-- Embeds `OrderTypeExt::get_price`. -/
def OrderType.get_price : OrderType → Option ℚ
  | OrderType.Market => none
  | OrderType.Limit price => some price
  | OrderType.Stop price => some price
  | OrderType.StopLimit _ limit_price => some limit_price

/-- Embeds `HashMap::get` on the positions table. -/
def posLookup (m : List (String × Position)) (k : String) : Option Position :=
  match m with
  | [] => none
  | (k2, v) :: rest => if k2 = k then some v else posLookup rest k

/-- Embeds `HashMap::insert` on the positions table (replaces an existing key). -/
def posInsert (m : List (String × Position)) (k : String) (v : Position) :
    List (String × Position) :=
  match m with
  | [] => [(k, v)]
  | (k2, v2) :: rest => if k2 = k then (k, v) :: rest else (k2, v2) :: posInsert rest k v

/-- Embeds `HashMap::remove` on the positions table. -/
def posRemove (m : List (String × Position)) (k : String) : List (String × Position) :=
  match m with
  | [] => []
  | (k2, v2) :: rest => if k2 = k then rest else (k2, v2) :: posRemove rest k

/-- The mutable state of `TradeExecutor` (the five `Arc<Mutex<_>>` tables;
every embedded operation is one serialized critical section over them). -/
structure TradeExecutorState where
  positions : List (String × Position)
  trades : List Trade
  risk_params : RiskParameters
  daily_pnl : ℚ
  trade_count : ℕ
  deriving DecidableEq, Repr

/-- Embeds `TradeExecutor::new`'s initial state. -/
def TradeExecutorState.init : TradeExecutorState :=
  { positions := []
    trades := []
    risk_params := RiskParameters.default'
    daily_pnl := 0
    trade_count := 0 }

/-- Embeds `TradeExecutor::should_execute_signal` (read-only). -/
def should_execute_signal (s : TradeExecutorState) (signal : TradingSignal) : Bool :=
  match posLookup s.positions signal.symbol with
  | some position =>
      match position.side, signal.action with
      | OrderSide.Buy, TradeAction.Sell => true
      | OrderSide.Sell, TradeAction.Buy => true
      | _, _ => false
  | none =>
      if s.risk_params.max_open_positions ≤ s.positions.length then false
      else if s.risk_params.max_trades_per_day ≤ s.trade_count then false
      else if s.daily_pnl ≤ -s.risk_params.max_daily_loss then false
      else true

/-- Decimal truncation toward zero (`Decimal::trunc`). -/
def ratTrunc (q : ℚ) : ℚ :=
  if 0 ≤ q then (⌊q⌋ : ℚ) else (⌈q⌉ : ℚ)

/-- Embeds `TradeExecutor::calculate_order_size`; the result of
`exchange.get_balance("USDT")` (its `free` field) is the `balanceResult`
argument. The source also binds `base_asset` from `symbol.split("USDT")`,
which is never used afterwards and is omitted here. -/
def calculate_order_size (s : TradeExecutorState) (signal : TradingSignal)
    (balanceResult : Except String ℚ) : Except TradingError ℚ :=
  let order_size := s.risk_params.max_order_size
  let confidence := signal.confidence
  let order_size := order_size * confidence
  let quote_balance :=
    match balanceResult with
    | .ok free => free
    | .error _ => s.risk_params.max_order_size / 2
  let max_units := quote_balance / signal.price
  let order_size := min order_size (max_units * signal.price)
  let order_quantity := order_size / signal.price
  let rounded_quantity := ratTrunc (order_quantity * 100000) / 100000
  .ok rounded_quantity

/-- Predicate for `t.symbol == sym && t.exit_order_id.is_none()`. -/
def isOpenTradeFor (sym : String) (t : Trade) : Bool :=
  decide (t.symbol = sym ∧ t.exit_order_id = none)

/-- Update the first trade in the list matching
`t.symbol == sym && t.exit_order_id.is_none()`, setting its exit order id and
realized pnl. -/
def updFirstOpen (sym order_id : String) (pnl : ℚ) : List Trade → List Trade
  | [] => []
  | t :: rest =>
      if t.symbol = sym ∧ t.exit_order_id = none then
        { t with exit_order_id := some order_id, pnl := some pnl } :: rest
      else
        t :: updFirstOpen sym order_id pnl rest

/-- Embeds `trades.iter_mut().rev().find(..)` followed by the field updates: update
the last open trade for the symbol. -/
def updLastOpen (trades : List Trade) (sym order_id : String) (pnl : ℚ) : List Trade :=
  (updFirstOpen sym order_id pnl trades.reverse).reverse

/-- The trade id `format!("trade-{}", now_millis)`. -/
def freshTradeId (now : ℤ) : String :=
  "trade-" ++ toString now

/-- Embeds `TradeExecutor::process_filled_order`; `chrono::Utc::now()` is the `now`
argument. -/
def process_filled_order (s : TradeExecutorState) (order : Order)
    (response : OrderResponse) (now : ℤ) : TradeExecutorState :=
  match posLookup s.positions order.symbol with
  | none =>
      let entry := response.average_price.getD (order.order_type.get_price.getD 0)
      let position := Position.new order.symbol order.side response.filled_quantity
        entry response.timestamp
      let rp := s.risk_params
      let position :=
        match position.side with
        | OrderSide.Buy =>
            { position with
                stop_loss := some (position.entry_price * (1 - rp.stop_loss_percent / 100))
                take_profit := some (position.entry_price * (1 + rp.take_profit_percent / 100)) }
        | OrderSide.Sell =>
            { position with
                stop_loss := some (position.entry_price * (1 + rp.stop_loss_percent / 100))
                take_profit := some (position.entry_price * (1 - rp.take_profit_percent / 100)) }
      let newTrade : Trade :=
        { id := freshTradeId now
          symbol := order.symbol
          side := order.side
          quantity := response.filled_quantity
          price := entry
          timestamp := response.timestamp
          pnl := none
          entry_order_id := response.order_id
          exit_order_id := none }
      { s with
          positions := posInsert s.positions order.symbol position
          trades := s.trades ++ [newTrade]
          trade_count := s.trade_count + 1 }
  | some position =>
      let exit_price := response.average_price.getD (order.order_type.get_price.getD 0)
      let price_diff :=
        match position.side with
        | OrderSide.Buy => exit_price - position.entry_price
        | OrderSide.Sell => position.entry_price - exit_price
      let realized_pnl := price_diff * position.quantity
      { s with
          positions := posRemove s.positions order.symbol
          trades := updLastOpen s.trades order.symbol response.order_id realized_pnl
          daily_pnl := s.daily_pnl + realized_pnl }

/-- Embeds `TradeExecutor::execute_signal`; the two exchange round-trips
(`get_balance` inside `calculate_order_size`, and `place_order`) are the
`balanceResult` and `placeResult` arguments. Returns the Rust function's
`TradingResult<Option<OrderResponse>>` paired with the post-state. -/
def execute_signal (s : TradeExecutorState) (signal : TradingSignal)
    (balanceResult : Except String ℚ) (placeResult : Except String OrderResponse)
    (now : ℤ) : Except TradingError (Option OrderResponse) × TradeExecutorState :=
  if should_execute_signal s signal then
    match calculate_order_size s signal balanceResult with
    | .error e => (.error e, s)
    | .ok order_size =>
      match signal.action with
      | TradeAction.Hold => (.ok none, s)
      | _ =>
        let side :=
          match signal.action with
          | TradeAction.Buy => OrderSide.Buy
          | _ => OrderSide.Sell
        let order : Order :=
          { symbol := signal.symbol
            quantity := order_size
            order_type := OrderType.Market
            side := side
            client_order_id := none
            timestamp := now }
        match placeResult with
        | .error e =>
            (.error (TradingError.OrderExecution ("Failed to place order: " ++ e)), s)
        | .ok order_response =>
            if order_response.status = OrderStatus.Filled
                ∨ order_response.status = OrderStatus.PartiallyFilled then
              (.ok (some order_response), process_filled_order s order order_response now)
            else
              (.ok (some order_response), s)
  else
    (.ok none, s)

/-- The successful-close body of the position monitor loop
(`start_position_monitor`): remove the position, and when a matching open
trade exists, finalize it and add the unrealized pnl to the daily total
(both updates live inside the `if let Some(trade)` block in the source). -/
def monitor_close_fill (s : TradeExecutorState) (position : Position)
    (response : OrderResponse) : TradeExecutorState :=
  let positions2 := posRemove s.positions position.symbol
  if s.trades.any (isOpenTradeFor position.symbol) then
    { s with
        positions := positions2
        trades := updLastOpen s.trades position.symbol response.order_id
          position.unrealized_pnl
        daily_pnl := s.daily_pnl + position.unrealized_pnl }
  else
    { s with positions := positions2 }

/-- One iteration of the position monitor for one symbol: close the position
when `should_close` holds and the close order succeeds; a failed close order
leaves the state unchanged. -/
def monitor_close_step (s : TradeExecutorState) (sym : String)
    (placeResult : Except String OrderResponse) : TradeExecutorState :=
  match posLookup s.positions sym with
  | some position =>
      if position.should_close then
        match placeResult with
        | .error _ => s
        | .ok response => monitor_close_fill s position response
      else s
  | none => s

/-- The market-data loop in `TradeExecutor::start`: on a tick for `sym`,
recompute the pnl of the open position for that symbol, if any. -/
def apply_market_tick (s : TradeExecutorState) (sym : String) (last_price : ℚ)
    (now : ℤ) : TradeExecutorState :=
  match posLookup s.positions sym with
  | some position =>
      { s with positions := posInsert s.positions sym (position.calculate_pnl last_price now) }
  | none => s

/-- One operation of the execution engine, as seen by its shared state. -/
inductive EngineOp where
  | signal (sig : TradingSignal) (balanceResult : Except String ℚ)
      (placeResult : Except String OrderResponse) (now : ℤ)
  | fill (order : Order) (response : OrderResponse) (now : ℤ)
  | monitorClose (sym : String) (placeResult : Except String OrderResponse)
  | tick (sym : String) (price : ℚ) (now : ℤ)

/-- The state transition of one engine operation. -/
def applyOp (s : TradeExecutorState) : EngineOp → TradeExecutorState
  | EngineOp.signal sig br pr now => (execute_signal s sig br pr now).2
  | EngineOp.fill order response now => process_filled_order s order response now
  | EngineOp.monitorClose sym pr => monitor_close_step s sym pr
  | EngineOp.tick sym price now => apply_market_tick s sym price now

/-! ## Signal processor (src/main.rs) -/

/-- Embeds `SignalProcessor`. -/
structure SignalProcessor where
  position_size : ℚ
  last_signal_time : ℤ
  signal_cooldown : ℤ
  deriving DecidableEq, Repr

/-- Embeds `SignalProcessor::new`. -/
def SignalProcessor.new (position_size : ℚ) : SignalProcessor :=
  { position_size := position_size
    last_signal_time := 0
    signal_cooldown := 300 }

/-- Embeds `SignalProcessor::should_process_signal`; `chrono::Utc::now()` is the
`now` argument, and the `&mut self` update is returned as the second
component. -/
def SignalProcessor.should_process_signal (sp : SignalProcessor) (now : ℤ)
    (signal : TradingSignal) : Bool × SignalProcessor :=
  let time_since_last := now - sp.last_signal_time
  if time_since_last < sp.signal_cooldown ∧ signal.action = TradeAction.Hold then
    (false, sp)
  else if signal.action ≠ TradeAction.Hold then
    (true, { sp with last_signal_time := now })
  else
    (true, sp)

/-! ## Concrete fixtures used by witnesses and counterexamples -/

/-- A concrete Buy signal for BTCUSDT. -/
def sigBuyBTC : TradingSignal :=
  { symbol := "BTCUSDT"
    action := TradeAction.Buy
    price := 100
    confidence := 1
    timestamp := 1000
    indicators := [] }

/-- A concrete Hold signal for ETHUSDT. -/
def sigHoldETH : TradingSignal :=
  { symbol := "ETHUSDT"
    action := TradeAction.Hold
    price := 100
    confidence := 1
    timestamp := 1100
    indicators := [] }

/-- A concrete half-confidence Buy signal. -/
def sigHalfConf : TradingSignal :=
  { symbol := "BTCUSDT"
    action := TradeAction.Buy
    price := 100
    confidence := 1 / 2
    timestamp := 0
    indicators := [] }

/-- A concrete canceled order response. -/
def respCanceled : OrderResponse :=
  { order_id := "1"
    client_order_id := none
    status := OrderStatus.Canceled
    filled_quantity := 0
    average_price := none
    timestamp := 0 }

/-- A concrete filled order response. -/
def respFilled : OrderResponse :=
  { order_id := "2"
    client_order_id := none
    status := OrderStatus.Filled
    filled_quantity := 2
    average_price := some 100
    timestamp := 0 }

/-- A concrete market buy order. -/
def orderBuyBTC : Order :=
  { symbol := "BTCUSDT"
    quantity := 2
    order_type := OrderType.Market
    side := OrderSide.Buy
    client_order_id := none
    timestamp := 0 }

/-- A concrete open long position on BTCUSDT (entry 100, quantity 2). -/
def posOpenBTC : Position :=
  { symbol := "BTCUSDT"
    side := OrderSide.Buy
    quantity := 2
    entry_price := 100
    current_price := 100
    unrealized_pnl := 0
    stop_loss := some 95
    take_profit := some 110
    open_time := 0
    last_update := 0 }

/-- The entry-only trade record matching `posOpenBTC`. -/
def tradeOpenBTC : Trade :=
  { id := "trade-0"
    symbol := "BTCUSDT"
    side := OrderSide.Buy
    quantity := 2
    price := 100
    timestamp := 0
    pnl := none
    entry_order_id := "2"
    exit_order_id := none }

/-- An executor state holding the open BTCUSDT position and its open trade. -/
def stateOpenBTC : TradeExecutorState :=
  { positions := [("BTCUSDT", posOpenBTC)]
    trades := [tradeOpenBTC]
    risk_params := RiskParameters.default'
    daily_pnl := 0
    trade_count := 1 }

/-- A concrete market sell order for BTCUSDT. -/
def orderSellBTC : Order :=
  { symbol := "BTCUSDT"
    quantity := 2
    order_type := OrderType.Market
    side := OrderSide.Sell
    client_order_id := none
    timestamp := 5 }

/-- A filled close response at average price 110. -/
def respFilled110 : OrderResponse :=
  { order_id := "3"
    client_order_id := none
    status := OrderStatus.Filled
    filled_quantity := 2
    average_price := some 110
    timestamp := 5 }

/-! ## Theorems -/

/-- C10: a `Position` whose `stop_loss` and `take_profit` are both `None` is
never auto-closed (`should_close` is `false` for every `current_price`), and
`Position::new` always constructs a position with `stop_loss = None` and
`take_profit = None`. -/
theorem position_new_no_levels_and_no_auto_close
    (p : Position) (hsl : p.stop_loss = none) (htp : p.take_profit = none)
    (symbol : String) (side : OrderSide) (quantity price : ℚ) (timestamp : ℤ) :
    p.should_close = false
      ∧ (Position.new symbol side quantity price timestamp).stop_loss = none
      ∧ (Position.new symbol side quantity price timestamp).take_profit = none := by
  refine ⟨?_, rfl, rfl⟩
  cases h : p.side <;> simp [Position.should_close, h, hsl, htp]

theorem position_new_no_levels_and_no_auto_close_witness :
    (Position.new "BTCUSDT" OrderSide.Buy 1 100 0).stop_loss = none
      ∧ (Position.new "BTCUSDT" OrderSide.Buy 1 100 0).should_close = false := by
  have h := position_new_no_levels_and_no_auto_close
    (Position.new "BTCUSDT" OrderSide.Buy 1 100 0) rfl rfl "BTCUSDT" OrderSide.Buy 1 100 0
  exact ⟨h.2.1, h.1⟩

/-- C4 is false as stated: the cooldown state is one global
`last_signal_time`, not per-instrument. A non-Hold signal for "BTCUSDT"
starts a cooldown that drops a later Hold signal for the distinct symbol
"ETHUSDT", even though no signal for "ETHUSDT" was ever forwarded. -/
theorem cooldown_not_per_symbol_counterexample :
    (((SignalProcessor.new 1).should_process_signal 1000 sigBuyBTC).1 = true)
    ∧ (sigHoldETH.symbol ≠ sigBuyBTC.symbol)
    ∧ ((((SignalProcessor.new 1).should_process_signal 1000
          sigBuyBTC).2).should_process_signal 1100 sigHoldETH).1 = false := by
  refine ⟨by decide, by decide, by decide⟩

/-- C4 (amended): the signal gate keeps a single global cooldown shared by
all symbols. An incoming signal is dropped iff its action is Hold and
`now - last_signal_time < signal_cooldown`, regardless of which symbol set
the timestamp; a non-Hold signal is always forwarded and restarts the global
cooldown window; a Hold signal never changes the gate state. -/
theorem should_process_signal_global_cooldown (sp : SignalProcessor) (now : ℤ)
    (signal : TradingSignal) :
    ((sp.should_process_signal now signal).1 = false ↔
      (now - sp.last_signal_time < sp.signal_cooldown
        ∧ signal.action = TradeAction.Hold))
    ∧ (signal.action ≠ TradeAction.Hold →
        (sp.should_process_signal now signal).1 = true
          ∧ (sp.should_process_signal now signal).2.last_signal_time = now)
    ∧ (signal.action = TradeAction.Hold →
        (sp.should_process_signal now signal).2 = sp) := by
  unfold SignalProcessor.should_process_signal
  by_cases hc : now - sp.last_signal_time < sp.signal_cooldown <;>
    by_cases ha : signal.action = TradeAction.Hold <;>
    simp [hc, ha]

theorem should_process_signal_global_cooldown_witness :
    sigBuyBTC.action ≠ TradeAction.Hold
    ∧ ((SignalProcessor.new 1).should_process_signal 1000 sigBuyBTC).1 = true := by
  refine ⟨by decide, ?_⟩
  exact ((should_process_signal_global_cooldown (SignalProcessor.new 1) 1000
    sigBuyBTC).2.1 (by decide)).1

/-- C2: for a signal whose symbol has no open position,
`should_execute_signal` accepts iff the open-position count is below
`max_open_positions`, the daily trade count is below `max_trades_per_day`,
and the daily PnL is strictly above `-max_daily_loss`; and a rejected signal
leaves the whole executor state unchanged (`execute_signal` returns
`Ok(None)` with the same state). -/
theorem should_execute_signal_no_position_risk_checks
    (s : TradeExecutorState) (signal : TradingSignal)
    (hno : posLookup s.positions signal.symbol = none) :
    (should_execute_signal s signal = true ↔
      (s.positions.length < s.risk_params.max_open_positions
        ∧ s.trade_count < s.risk_params.max_trades_per_day
        ∧ -s.risk_params.max_daily_loss < s.daily_pnl))
    ∧ (should_execute_signal s signal = false →
        ∀ (balanceResult : Except String ℚ) (placeResult : Except String OrderResponse)
          (now : ℤ),
          execute_signal s signal balanceResult placeResult now = (Except.ok none, s)) := by
  constructor
  · unfold should_execute_signal
    rw [hno]
    by_cases h1 : s.risk_params.max_open_positions ≤ s.positions.length <;>
      by_cases h2 : s.risk_params.max_trades_per_day ≤ s.trade_count <;>
      by_cases h3 : s.daily_pnl ≤ -s.risk_params.max_daily_loss <;>
      simp [h1, h2, h3] <;>
      first
        | omega
        | exact ⟨by omega, by omega, by linarith⟩
  · intro hfalse balanceResult placeResult now
    simp [execute_signal, hfalse]

/-- C3: if the exchange order submission errors, or the returned order status
is neither `Filled` nor `PartiallyFilled`, `execute_signal` leaves the whole
executor state (positions, trades, daily PnL, trade count) exactly as it was. -/
theorem execute_signal_failure_leaves_state
    (s : TradeExecutorState) (signal : TradingSignal)
    (balanceResult : Except String ℚ) (now : ℤ) :
    (∀ errMsg : String,
      (execute_signal s signal balanceResult (Except.error errMsg) now).2 = s)
    ∧ (∀ response : OrderResponse,
        response.status ≠ OrderStatus.Filled →
        response.status ≠ OrderStatus.PartiallyFilled →
        (execute_signal s signal balanceResult (Except.ok response) now).2 = s) := by
  constructor
  · intro errMsg
    cases h : should_execute_signal s signal <;>
      cases ha : signal.action <;>
      simp [execute_signal, calculate_order_size, h, ha]
  · intro response h1 h2
    cases h : should_execute_signal s signal <;>
      cases ha : signal.action <;>
      simp [execute_signal, calculate_order_size, h, ha, h1, h2]

/-- C9: `calculate_order_size` never errors on a balance-lookup failure: when
`get_balance` fails the free quote balance is taken to be
`max_order_size / 2`, and in both cases the returned quantity is
`trunc5(min(max_order_size * confidence, quote_balance) / price)` where
`trunc5 x = trunc(x * 100000) / 100000`. -/
theorem calculate_order_size_formula
    (s : TradeExecutorState) (signal : TradingSignal) (hprice : 0 < signal.price) :
    (∀ errMsg : String,
      calculate_order_size s signal (Except.error errMsg) =
        Except.ok (ratTrunc (min (s.risk_params.max_order_size * signal.confidence)
            (s.risk_params.max_order_size / 2) / signal.price * 100000) / 100000))
    ∧ (∀ free : ℚ,
      calculate_order_size s signal (Except.ok free) =
        Except.ok (ratTrunc (min (s.risk_params.max_order_size * signal.confidence)
            free / signal.price * 100000) / 100000)) := by
  have hne : signal.price ≠ 0 := ne_of_gt hprice
  constructor <;> intro x <;>
    simp [calculate_order_size, div_mul_cancel₀ _ hne]

theorem should_execute_signal_no_position_risk_checks_witness :
    posLookup TradeExecutorState.init.positions sigBuyBTC.symbol = none
    ∧ (should_execute_signal TradeExecutorState.init sigBuyBTC = true ↔
      (TradeExecutorState.init.positions.length
          < TradeExecutorState.init.risk_params.max_open_positions
        ∧ TradeExecutorState.init.trade_count
          < TradeExecutorState.init.risk_params.max_trades_per_day
        ∧ -TradeExecutorState.init.risk_params.max_daily_loss
          < TradeExecutorState.init.daily_pnl)) :=
  ⟨by decide,
    (should_execute_signal_no_position_risk_checks TradeExecutorState.init
      sigBuyBTC (by decide)).1⟩

theorem execute_signal_failure_leaves_state_witness :
    respCanceled.status ≠ OrderStatus.Filled
    ∧ respCanceled.status ≠ OrderStatus.PartiallyFilled
    ∧ (execute_signal TradeExecutorState.init sigBuyBTC (Except.ok 100)
        (Except.ok respCanceled) 0).2 = TradeExecutorState.init :=
  ⟨by decide, by decide,
    (execute_signal_failure_leaves_state TradeExecutorState.init sigBuyBTC
      (Except.ok 100) 0).2 respCanceled (by decide) (by decide)⟩

theorem calculate_order_size_formula_witness :
    (0 : ℚ) < sigHalfConf.price
    ∧ calculate_order_size TradeExecutorState.init sigHalfConf (Except.error "x") =
      Except.ok (ratTrunc (min
          (TradeExecutorState.init.risk_params.max_order_size * sigHalfConf.confidence)
          (TradeExecutorState.init.risk_params.max_order_size / 2)
            / sigHalfConf.price * 100000)
        / 100000) :=
  ⟨by decide,
    (calculate_order_size_formula TradeExecutorState.init sigHalfConf (by decide)).1 "x"⟩

/-- C7: every indicator function, handed an input shorter than its minimum
required length for the given period (`period` for SMA/EMA/Bollinger,
`period + 1` for RSI and ATR, `slow + signal` for MACD, `k_period` for
Stochastic, 2 closes or fewer volumes than closes for OBV), returns an
`InsufficientData` error; being total Lean functions on immutable lists, they
neither panic, mutate their input, nor return a partial result. -/
theorem indicators_insufficient_data
    (sqrtFn : ℚ → ℚ) (neg_infinity pos_infinity : ℚ)
    (prices high_prices low_prices close_prices volumes : List ℚ)
    (period fast_period slow_period signal_period k_period d_period : ℕ)
    (std_dev_multiplier : ℚ)
    (h_short : prices.length < period)
    (h_rsi : prices.length ≤ period)
    (h_macd : prices.length < slow_period + signal_period)
    (h_atr : high_prices.length < period + 1 ∨ low_prices.length < period + 1
        ∨ close_prices.length < period + 1)
    (h_sto : high_prices.length < k_period ∨ low_prices.length < k_period
        ∨ close_prices.length < k_period)
    (h_obv : close_prices.length < 2 ∨ volumes.length < close_prices.length) :
    (∃ m, calculate_sma prices period = .error (.InsufficientData m))
    ∧ (∃ m, calculate_ema prices period = .error (.InsufficientData m))
    ∧ (∃ m, calculate_rsi prices period = .error (.InsufficientData m))
    ∧ (∃ m, calculate_macd prices fast_period slow_period signal_period =
        .error (.InsufficientData m))
    ∧ (∃ m, calculate_bollinger_bands sqrtFn prices period std_dev_multiplier =
        .error (.InsufficientData m))
    ∧ (∃ m, calculate_atr high_prices low_prices close_prices period =
        .error (.InsufficientData m))
    ∧ (∃ m, calculate_stochastic neg_infinity pos_infinity high_prices low_prices
        close_prices k_period d_period = .error (.InsufficientData m))
    ∧ (∃ m, calculate_obv close_prices volumes = .error (.InsufficientData m)) := by
  refine ⟨?_, ?_, ?_, ?_, ?_, ?_, ?_, ?_⟩
  · simp only [calculate_sma, if_pos h_short]; exact ⟨_, rfl⟩
  · simp only [calculate_ema, if_pos h_short]; exact ⟨_, rfl⟩
  · simp only [calculate_rsi, if_pos h_rsi]; exact ⟨_, rfl⟩
  · simp only [calculate_macd, if_pos h_macd]; exact ⟨_, rfl⟩
  · simp only [calculate_bollinger_bands, if_pos h_short]; exact ⟨_, rfl⟩
  · simp only [calculate_atr, if_pos h_atr]; exact ⟨_, rfl⟩
  · simp only [calculate_stochastic, if_pos h_sto]; exact ⟨_, rfl⟩
  · simp only [calculate_obv, if_pos h_obv]; exact ⟨_, rfl⟩

theorem indicators_insufficient_data_witness :
    (([] : List ℚ).length < 1)
    ∧ (∃ m, calculate_sma ([] : List ℚ) 1 = .error (.InsufficientData m))
    ∧ (∃ m, calculate_ema ([] : List ℚ) 1 = .error (.InsufficientData m))
    ∧ (∃ m, calculate_rsi ([] : List ℚ) 1 = .error (.InsufficientData m))
    ∧ (∃ m, calculate_macd ([] : List ℚ) 1 2 1 = .error (.InsufficientData m))
    ∧ (∃ m, calculate_bollinger_bands id ([] : List ℚ) 1 2 =
        .error (.InsufficientData m))
    ∧ (∃ m, calculate_atr ([] : List ℚ) [] [] 1 = .error (.InsufficientData m))
    ∧ (∃ m, calculate_stochastic 0 0 ([] : List ℚ) [] [] 1 1 =
        .error (.InsufficientData m))
    ∧ (∃ m, calculate_obv ([] : List ℚ) [] = .error (.InsufficientData m)) :=
  ⟨by decide,
    indicators_insufficient_data id 0 0 [] [] [] [] [] 1 1 2 1 1 1 2
      (by decide) (by decide) (by decide) (by decide) (by decide) (by decide)⟩

/-! ### Association-list lemmas for the positions table -/

lemma posLookup_eq_none_of_not_mem (m : List (String × Position)) (k : String)
    (h : k ∉ m.map Prod.fst) : posLookup m k = none := by
  induction m with
  | nil => rfl
  | cons p rest ih =>
    obtain ⟨k2, v2⟩ := p
    simp only [List.map_cons, List.mem_cons, not_or] at h
    rw [posLookup, if_neg (fun hk => h.1 hk.symm)]
    exact ih h.2

lemma mem_keys_posInsert (m : List (String × Position)) (k : String) (v : Position)
    (x : String) :
    x ∈ (posInsert m k v).map Prod.fst ↔ x ∈ m.map Prod.fst ∨ x = k := by
  induction m with
  | nil => simp [posInsert]
  | cons p rest ih =>
    obtain ⟨k2, v2⟩ := p
    rw [posInsert]
    split_ifs with h
    · subst h
      simp only [List.map_cons, List.mem_cons]
      tauto
    · simp only [List.map_cons, List.mem_cons, ih]
      tauto

lemma nodup_posInsert (m : List (String × Position)) (k : String) (v : Position)
    (h : (m.map Prod.fst).Nodup) : ((posInsert m k v).map Prod.fst).Nodup := by
  induction m with
  | nil => simp [posInsert]
  | cons p rest ih =>
    obtain ⟨k2, v2⟩ := p
    simp only [List.map_cons, List.nodup_cons] at h
    rw [posInsert]
    split_ifs with hk
    · subst hk
      simp only [List.map_cons, List.nodup_cons]
      exact ⟨h.1, h.2⟩
    · simp only [List.map_cons, List.nodup_cons]
      refine ⟨?_, ih h.2⟩
      rw [mem_keys_posInsert]
      rintro (hm | hm)
      · exact h.1 hm
      · exact hk hm

lemma posRemove_sublist (m : List (String × Position)) (k : String) :
    (posRemove m k).Sublist m := by
  induction m with
  | nil => simp [posRemove]
  | cons p rest ih =>
    obtain ⟨k2, v2⟩ := p
    rw [posRemove]
    split_ifs with hk
    · exact (List.Sublist.refl rest).cons (k2, v2)
    · exact ih.cons₂ (k2, v2)

lemma nodup_posRemove (m : List (String × Position)) (k : String)
    (h : (m.map Prod.fst).Nodup) : ((posRemove m k).map Prod.fst).Nodup :=
  List.Nodup.sublist ((posRemove_sublist m k).map Prod.fst) h

lemma posLookup_posRemove_self (m : List (String × Position)) (k : String)
    (h : (m.map Prod.fst).Nodup) : posLookup (posRemove m k) k = none := by
  induction m with
  | nil => rfl
  | cons p rest ih =>
    obtain ⟨k2, v2⟩ := p
    simp only [List.map_cons, List.nodup_cons] at h
    rw [posRemove]
    split_ifs with hk
    · subst hk
      exact posLookup_eq_none_of_not_mem rest k2 h.1
    · rw [posLookup, if_neg hk]
      exact ih h.2

/-! ### Trade-ledger lemmas -/

lemma updFirstOpen_mem (sym order_id : String) (pnl : ℚ) (l : List Trade)
    (h : ∃ t ∈ l, isOpenTradeFor sym t = true) :
    ∃ t ∈ updFirstOpen sym order_id pnl l,
      t.exit_order_id = some order_id ∧ t.pnl = some pnl := by
  induction l with
  | nil => simp at h
  | cons t rest ih =>
    by_cases hm : t.symbol = sym ∧ t.exit_order_id = none
    · refine ⟨{ t with exit_order_id := some order_id, pnl := some pnl }, ?_, rfl, rfl⟩
      rw [updFirstOpen, if_pos hm]
      exact List.mem_cons_self _ _
    · have hrest : ∃ u ∈ rest, isOpenTradeFor sym u = true := by
        obtain ⟨u, hu, hpred⟩ := h
        rcases List.mem_cons.mp hu with rfl | hu2
        · exact absurd (of_decide_eq_true hpred) hm
        · exact ⟨u, hu2, hpred⟩
      obtain ⟨u, hu, h1, h2⟩ := ih hrest
      refine ⟨u, ?_, h1, h2⟩
      rw [updFirstOpen, if_neg hm]
      exact List.mem_cons_of_mem _ hu

lemma updLastOpen_mem (trades : List Trade) (sym order_id : String) (pnl : ℚ)
    (h : ∃ t ∈ trades, isOpenTradeFor sym t = true) :
    ∃ t ∈ updLastOpen trades sym order_id pnl,
      t.exit_order_id = some order_id ∧ t.pnl = some pnl := by
  have hrev : ∃ t ∈ trades.reverse, isOpenTradeFor sym t = true := by
    obtain ⟨t, ht, hp⟩ := h
    exact ⟨t, List.mem_reverse.mpr ht, hp⟩
  obtain ⟨t, ht, h1, h2⟩ := updFirstOpen_mem sym order_id pnl trades.reverse hrev
  exact ⟨t, List.mem_reverse.mpr ht, h1, h2⟩

/-- C8: processing a closing fill against an open position with entry price
`E` and quantity `Q` at exit price `X` adds realized PnL `(X - E) * Q`
(long) or `(E - X) * Q` (short) to the daily PnL accumulator, records it on
the matching open trade (which gets the closing order id), and removes the
position from the positions table. -/
theorem process_filled_order_close_pnl
    (s : TradeExecutorState) (order : Order) (resp : OrderResponse) (now : ℤ)
    (pos : Position) (X : ℚ)
    (hnd : (s.positions.map Prod.fst).Nodup)
    (hpos : posLookup s.positions order.symbol = some pos)
    (havg : resp.average_price = some X)
    (hopen : ∃ t ∈ s.trades, isOpenTradeFor order.symbol t = true) :
    posLookup (process_filled_order s order resp now).positions order.symbol = none
    ∧ (pos.side = OrderSide.Buy →
        (process_filled_order s order resp now).daily_pnl
            = s.daily_pnl + (X - pos.entry_price) * pos.quantity
        ∧ ∃ t ∈ (process_filled_order s order resp now).trades,
            t.exit_order_id = some resp.order_id
              ∧ t.pnl = some ((X - pos.entry_price) * pos.quantity))
    ∧ (pos.side = OrderSide.Sell →
        (process_filled_order s order resp now).daily_pnl
            = s.daily_pnl + (pos.entry_price - X) * pos.quantity
        ∧ ∃ t ∈ (process_filled_order s order resp now).trades,
            t.exit_order_id = some resp.order_id
              ∧ t.pnl = some ((pos.entry_price - X) * pos.quantity)) := by
  refine ⟨?_, ?_, ?_⟩
  · simp only [process_filled_order, hpos]
    exact posLookup_posRemove_self s.positions order.symbol hnd
  · intro hside
    constructor
    · simp [process_filled_order, hpos, havg, hside]
    · simp only [process_filled_order, hpos, havg, hside]
      exact updLastOpen_mem s.trades order.symbol resp.order_id _ hopen
  · intro hside
    constructor
    · simp [process_filled_order, hpos, havg, hside]
    · simp only [process_filled_order, hpos, havg, hside]
      exact updLastOpen_mem s.trades order.symbol resp.order_id _ hopen

theorem process_filled_order_close_pnl_witness :
    (stateOpenBTC.positions.map Prod.fst).Nodup
    ∧ posLookup stateOpenBTC.positions orderSellBTC.symbol = some posOpenBTC
    ∧ respFilled110.average_price = some 110
    ∧ (∃ t ∈ stateOpenBTC.trades, isOpenTradeFor orderSellBTC.symbol t = true)
    ∧ posLookup (process_filled_order stateOpenBTC orderSellBTC respFilled110 5).positions
        orderSellBTC.symbol = none
    ∧ (posOpenBTC.side = OrderSide.Buy →
        (process_filled_order stateOpenBTC orderSellBTC respFilled110 5).daily_pnl
            = stateOpenBTC.daily_pnl + (110 - posOpenBTC.entry_price) * posOpenBTC.quantity
        ∧ ∃ t ∈ (process_filled_order stateOpenBTC orderSellBTC respFilled110 5).trades,
            t.exit_order_id = some respFilled110.order_id
              ∧ t.pnl = some ((110 - posOpenBTC.entry_price) * posOpenBTC.quantity)) := by
  have h := process_filled_order_close_pnl stateOpenBTC orderSellBTC respFilled110 5
    posOpenBTC 110 (by decide) (by decide) (by decide) (by decide)
  exact ⟨by decide, by decide, by decide, by decide, h.1, h.2.1⟩

/-! ### Key-uniqueness of the positions table under every engine operation -/

lemma nodup_process_filled_order (s : TradeExecutorState) (order : Order)
    (response : OrderResponse) (now : ℤ) (h : (s.positions.map Prod.fst).Nodup) :
    (((process_filled_order s order response now).positions).map Prod.fst).Nodup := by
  cases hl : posLookup s.positions order.symbol <;>
    simp only [process_filled_order, hl]
  · exact nodup_posInsert s.positions order.symbol _ h
  · exact nodup_posRemove s.positions order.symbol h

lemma nodup_execute_signal (s : TradeExecutorState) (sig : TradingSignal)
    (br : Except String ℚ) (pr : Except String OrderResponse) (now : ℤ)
    (h : (s.positions.map Prod.fst).Nodup) :
    (((execute_signal s sig br pr now).2).positions.map Prod.fst).Nodup := by
  cases hb : should_execute_signal s sig
  · simp only [execute_signal, hb, Bool.false_eq_true, if_false]
    exact h
  · cases br <;> cases hact : sig.action <;> cases pr <;>
      simp only [execute_signal, hb, hact, calculate_order_size, if_true] <;>
      first
        | exact h
        | (split_ifs <;>
            first
              | exact nodup_process_filled_order s _ _ now h
              | exact h)

lemma nodup_applyOp (s : TradeExecutorState) (op : EngineOp)
    (h : (s.positions.map Prod.fst).Nodup) :
    (((applyOp s op).positions).map Prod.fst).Nodup := by
  cases op with
  | signal sig br pr now => exact nodup_execute_signal s sig br pr now h
  | fill order response now => exact nodup_process_filled_order s order response now h
  | monitorClose sym pr =>
    cases hl : posLookup s.positions sym <;>
      simp only [applyOp, monitor_close_step, hl]
    · exact h
    case some position =>
      split_ifs with hc
      · cases pr with
        | error e => exact h
        | ok response =>
          simp only [monitor_close_fill]
          split_ifs with ht <;> exact nodup_posRemove s.positions position.symbol h
      · exact h
  | tick sym price now =>
    cases hl : posLookup s.positions sym <;>
      simp only [applyOp, apply_market_tick, hl]
    · exact h
    · exact nodup_posInsert s.positions sym _ h

lemma nodup_foldl_applyOp (ops : List EngineOp) (s : TradeExecutorState)
    (h : (s.positions.map Prod.fst).Nodup) :
    (((ops.foldl applyOp s).positions).map Prod.fst).Nodup := by
  induction ops generalizing s with
  | nil => exact h
  | cons op rest ih => exact ih _ (nodup_applyOp s op h)

/-- C1: along every sequence of engine operations (signal executions,
filled-order processing, monitor-driven closes, market-data ticks) starting
from the initial executor state, the positions table holds at most one entry
per symbol; and a fill processed for a symbol that already has a position
takes the closing branch — it removes that position and never creates a
second one, so a position is only created when none exists for the symbol. -/
theorem positions_at_most_one_per_symbol (ops : List EngineOp) (sym : String) :
    (((ops.foldl applyOp TradeExecutorState.init).positions.map Prod.fst).count sym ≤ 1)
    ∧ (∀ (s : TradeExecutorState) (order : Order) (response : OrderResponse) (now : ℤ),
        (posLookup s.positions order.symbol).isSome = true →
          (process_filled_order s order response now).positions
            = posRemove s.positions order.symbol) := by
  constructor
  · have hnd := nodup_foldl_applyOp ops TradeExecutorState.init (by simp [TradeExecutorState.init])
    exact List.nodup_iff_count_le_one.mp hnd sym
  · intro s order response now hsome
    obtain ⟨position, hl⟩ := Option.isSome_iff_exists.mp hsome
    simp only [process_filled_order, hl]

theorem positions_at_most_one_per_symbol_witness :
    ((([EngineOp.fill orderBuyBTC respFilled 0,
        EngineOp.fill orderSellBTC respFilled110 5].foldl applyOp
        TradeExecutorState.init).positions.map Prod.fst).count "BTCUSDT" ≤ 1)
    ∧ (posLookup stateOpenBTC.positions orderSellBTC.symbol).isSome = true
    ∧ (process_filled_order stateOpenBTC orderSellBTC respFilled110 5).positions
        = posRemove stateOpenBTC.positions orderSellBTC.symbol :=
  ⟨(positions_at_most_one_per_symbol
      [EngineOp.fill orderBuyBTC respFilled 0,
        EngineOp.fill orderSellBTC respFilled110 5] "BTCUSDT").1,
    by decide,
    (positions_at_most_one_per_symbol [] "BTCUSDT").2 stateOpenBTC orderSellBTC
      respFilled110 5 (by decide)⟩

/-! ### Sliding-window SMA refinement -/

lemma windowSum_succ (l : List ℚ) (n i : ℕ) :
    windowSum l (n + 1) i = windowSum l n i + l.getD (i + n) 0 := by
  rw [windowSum, windowSum,
    show List.range (n + 1) = List.range n ++ [n] from List.range_succ n,
    List.map_append, List.sum_append]
  simp

lemma windowSum_eq_sum_window (l : List ℚ) (i : ℕ) :
    ∀ n : ℕ, i + n ≤ l.length → ((l.drop i).take n).sum = windowSum l n i := by
  intro n
  induction n with
  | zero => intro _; simp [windowSum]
  | succ m ih =>
    intro h
    have hlt : i + m < l.length := by omega
    have h1 : (l.drop i)[m]? = some (l.getD (i + m) 0) := by
      rw [List.getElem?_drop, List.getD_eq_getElem?_getD,
        List.getElem?_eq_getElem hlt]
      rfl
    rw [List.take_succ, List.sum_append, ih (by omega), h1, windowSum_succ]
    simp

lemma windowSum_shift (l : List ℚ) (p j : ℕ) :
    windowSum l (p + 1) (j + 1)
      = windowSum l (p + 1) j - l.getD j 0 + l.getD (j + (p + 1)) 0 := by
  have h1 : windowSum l (p + 1) j
      = l.getD j 0 + ((List.range p).map (fun k => l.getD (j + 1 + k) 0)).sum := by
    rw [windowSum, List.range_succ_eq_map, List.map_cons, List.map_map, List.sum_cons]
    congr 2
    apply List.map_congr_left
    intro a _
    show l.getD (j + (a + 1)) 0 = l.getD (j + 1 + a) 0
    congr 1
    omega
  have h2 : windowSum l (p + 1) (j + 1)
      = ((List.range p).map (fun k => l.getD (j + 1 + k) 0)).sum
          + l.getD (j + (p + 1)) 0 := by
    rw [windowSum, List.range_succ, List.map_append, List.sum_append]
    simp only [List.map_cons, List.map_nil, List.sum_cons, List.sum_nil, add_zero]
    congr 1
    congr 1
    omega
  rw [h1, h2]
  ring

lemma smaGo_stop (l : List ℚ) (per i : ℕ) (sum : ℚ) (h : ¬ i < l.length) :
    smaGo l per i sum = [] := by
  rw [smaGo, if_neg h]

lemma smaGo_step (l : List ℚ) (per i : ℕ) (sum : ℚ) (h : i < l.length) :
    smaGo l per i sum
      = ((sum - l.getD (i - per) 0 + l.getD i 0) / (per : ℚ))
          :: smaGo l per (i + 1) (sum - l.getD (i - per) 0 + l.getD i 0) := by
  rw [smaGo, if_pos h]

lemma smaGo_eq_windows (l : List ℚ) (p : ℕ) :
    ∀ (fuel i : ℕ), fuel = l.length - i → p + 1 ≤ i →
      smaGo l (p + 1) i (windowSum l (p + 1) (i - (p + 1)))
        = (List.range fuel).map
            (fun j => windowSum l (p + 1) (i - (p + 1) + 1 + j) / ((p + 1 : ℕ) : ℚ)) := by
  intro fuel
  induction fuel with
  | zero =>
    intro i hfuel hpi
    rw [smaGo_stop _ _ _ _ (by omega)]
    simp
  | succ m ih =>
    intro i hfuel hpi
    have hi : i < l.length := by omega
    have hsum2 : windowSum l (p + 1) (i - (p + 1)) - l.getD (i - (p + 1)) 0 + l.getD i 0
        = windowSum l (p + 1) (i - (p + 1) + 1) := by
      have h := windowSum_shift l p (i - (p + 1))
      have hidx : i - (p + 1) + (p + 1) = i := by omega
      rw [hidx] at h
      linarith
    have hii : i - (p + 1) = i - (p + 1) := rfl
    rw [smaGo_step _ _ _ _ hi, hsum2]
    have ih2 := ih (i + 1) (by omega) (by omega)
    have hidx2 : (i + 1) - (p + 1) = i - (p + 1) + 1 := by omega
    rw [hidx2] at ih2
    rw [ih2, List.range_succ_eq_map, List.map_cons, List.map_map]
    congr 1
    apply List.map_congr_left
    intro a _
    show windowSum l (p + 1) (i - (p + 1) + 1 + 1 + a) / ((p + 1 : ℕ) : ℚ)
      = windowSum l (p + 1) (i - (p + 1) + 1 + (a + 1)) / ((p + 1 : ℕ) : ℚ)
    congr 2
    omega

lemma getD_range_map (f : ℕ → ℚ) (n i : ℕ) (h : i < n) :
    ((List.range n).map f).getD i 0 = f i := by
  rw [List.getD_eq_getElem?_getD, List.getElem?_map, List.getElem?_range h]
  rfl

/-- C6: for `1 ≤ period ≤ len`, the O(1)-per-step running-sum SMA equals the
naive per-window recomputation: it succeeds with a list of length
`len - period + 1` whose `i`-th element is the arithmetic mean of
`prices[i..i+period]`. -/
theorem calculate_sma_eq_naive (prices : List ℚ) (period : ℕ)
    (hp : 1 ≤ period) (hlen : period ≤ prices.length) :
    calculate_sma prices period = Except.ok (naive_sma prices period)
    ∧ (naive_sma prices period).length = prices.length - period + 1
    ∧ (∀ i, i < (naive_sma prices period).length →
        (naive_sma prices period).getD i 0
          = ((prices.drop i).take period).sum / (period : ℚ)) := by
  obtain ⟨p, rfl⟩ : ∃ p, period = p + 1 := ⟨period - 1, by omega⟩
  refine ⟨?_, by simp [naive_sma], ?_⟩
  · rw [calculate_sma, if_neg (by omega)]
    show Except.ok (((prices.take (p + 1)).sum / ((p + 1 : ℕ) : ℚ))
        :: smaGo prices (p + 1) (p + 1) ((prices.take (p + 1)).sum))
      = Except.ok (naive_sma prices (p + 1))
    have h0 : (prices.take (p + 1)).sum = windowSum prices (p + 1) 0 := by
      have h := windowSum_eq_sum_window prices 0 (p + 1) (by omega)
      simpa using h
    rw [h0]
    have hgo := smaGo_eq_windows prices p (prices.length - (p + 1)) (p + 1) rfl
      (le_refl (p + 1))
    have hz : (p + 1) - (p + 1) = 0 := by omega
    rw [hz] at hgo
    rw [hgo, naive_sma, List.range_succ_eq_map, List.map_cons, List.map_map]
    congr 2
    · rw [List.drop_zero, h0]
    · apply List.map_congr_left
      intro a ha
      have hb : a < prices.length - (p + 1) := List.mem_range.mp ha
      show windowSum prices (p + 1) (0 + 1 + a) / ((p + 1 : ℕ) : ℚ)
        = ((prices.drop (a + 1)).take (p + 1)).sum / ((p + 1 : ℕ) : ℚ)
      have hidx : 0 + 1 + a = a + 1 := by omega
      rw [hidx, windowSum_eq_sum_window prices (a + 1) (p + 1) (by omega)]
  · intro i hi
    have hlen2 : (naive_sma prices (p + 1)).length = prices.length - (p + 1) + 1 := by
      simp [naive_sma]
    rw [hlen2] at hi
    rw [naive_sma, getD_range_map _ _ _ hi]

theorem calculate_sma_eq_naive_witness :
    (1 ≤ 2 ∧ 2 ≤ ([1, 2, 3, 4] : List ℚ).length)
    ∧ calculate_sma ([1, 2, 3, 4] : List ℚ) 2
        = Except.ok (naive_sma ([1, 2, 3, 4] : List ℚ) 2) :=
  ⟨⟨by decide, by decide⟩,
    (calculate_sma_eq_naive ([1, 2, 3, 4] : List ℚ) 2 (by decide) (by decide)).1⟩

/-! ### MACD structure -/

lemma emaGo_stop (l : List ℚ) (mult : ℚ) (i : ℕ) (prev : ℚ) (h : ¬ i < l.length) :
    emaGo l mult i prev = [] := by
  rw [emaGo, if_neg h]

lemma emaGo_step (l : List ℚ) (mult : ℚ) (i : ℕ) (prev : ℚ) (h : i < l.length) :
    emaGo l mult i prev
      = ((l.getD i 0 - prev) * mult + prev)
          :: emaGo l mult (i + 1) ((l.getD i 0 - prev) * mult + prev) := by
  rw [emaGo, if_pos h]

lemma emaGo_length (l : List ℚ) (mult : ℚ) :
    ∀ (fuel i : ℕ) (prev : ℚ), fuel = l.length - i →
      (emaGo l mult i prev).length = fuel := by
  intro fuel
  induction fuel with
  | zero =>
    intro i prev h
    rw [emaGo_stop _ _ _ _ (by omega)]
    rfl
  | succ m ih =>
    intro i prev h
    rw [emaGo_step _ _ _ _ (by omega), List.length_cons, ih (i + 1) _ (by omega)]

lemma emaList_length (l : List ℚ) (period : ℕ) :
    (emaList l period).length = l.length - period + 1 := by
  rw [emaList, List.length_cons, emaGo_length l _ (l.length - period) period _ rfl]

lemma calculate_ema_ok (l : List ℚ) (period : ℕ) (h : period ≤ l.length) :
    calculate_ema l period = Except.ok (emaList l period) := by
  rw [calculate_ema, if_neg (by omega)]

lemma getD_drop (l : List ℚ) (m i : ℕ) : (l.drop m).getD i 0 = l.getD (m + i) 0 := by
  rw [List.getD_eq_getElem?_getD, List.getD_eq_getElem?_getD, List.getElem?_drop]

lemma getD_zipWith_sub (l1 : List ℚ) :
    ∀ (l2 : List ℚ) (i : ℕ), i < (List.zipWith (fun m s => m - s) l1 l2).length →
      (List.zipWith (fun m s => m - s) l1 l2).getD i 0 = l1.getD i 0 - l2.getD i 0 := by
  induction l1 with
  | nil => intro l2 i hi; simp at hi
  | cons a l1 ih =>
    intro l2 i hi
    cases l2 with
    | nil => simp at hi
    | cons b l2 =>
      cases i with
      | zero => rfl
      | succ j =>
        simp only [List.zipWith_cons_cons, List.length_cons] at hi
        simp only [List.zipWith_cons_cons, List.getD_cons_succ]
        exact ih l2 j (by omega)

/-- C5: for `fast < slow` and `len ≥ slow + signal`, `calculate_macd`
succeeds; its MACD line has length `len - slow + 1` and its `i`-th value is
the fast EMA at index `slow - fast + i` minus the slow EMA at index `i`; the
signal line is the EMA of the MACD line with the signal period; and each
histogram element is the MACD-line value minus the signal-line value at the
same index. -/
theorem calculate_macd_structure
    (prices : List ℚ) (fast_period slow_period signal_period : ℕ)
    (hfs : fast_period < slow_period)
    (hlen : slow_period + signal_period ≤ prices.length) :
    ∃ macd_line signal_line histogram,
      calculate_macd prices fast_period slow_period signal_period
          = Except.ok (macd_line, signal_line, histogram)
      ∧ macd_line.length = prices.length - slow_period + 1
      ∧ (∀ i, i < macd_line.length →
          macd_line.getD i 0
            = (emaList prices fast_period).getD (slow_period - fast_period + i) 0
                - (emaList prices slow_period).getD i 0)
      ∧ calculate_ema macd_line signal_period = Except.ok signal_line
      ∧ (∀ i, i < histogram.length →
          histogram.getD i 0 = macd_line.getD i 0 - signal_line.getD i 0) := by
  have hfast : calculate_ema prices fast_period = Except.ok (emaList prices fast_period) :=
    calculate_ema_ok prices fast_period (by omega)
  have hslow : calculate_ema prices slow_period = Except.ok (emaList prices slow_period) :=
    calculate_ema_ok prices slow_period (by omega)
  have hslowlen : (emaList prices slow_period).length
      = prices.length - slow_period + 1 := emaList_length prices slow_period
  set L := (List.range ((emaList prices slow_period).length)).map
    (fun i => ((emaList prices fast_period).drop (slow_period - fast_period)).getD i 0
      - (emaList prices slow_period).getD i 0) with hL
  have hLlen : L.length = prices.length - slow_period + 1 := by
    rw [hL, List.length_map, List.length_range, hslowlen]
  have hsig : calculate_ema L signal_period = Except.ok (emaList L signal_period) := by
    apply calculate_ema_ok
    omega
  refine ⟨L, emaList L signal_period,
    L.zipWith (fun m s => m - s) (emaList L signal_period), ?_, hLlen, ?_, hsig, ?_⟩
  · have hoff : 0 < slow_period - fast_period := by omega
    rw [calculate_macd, if_neg (by omega), hfast, hslow]
    simp only [bind, Except.bind, if_pos hoff]
    rw [← hL, hsig]
    rfl
  · intro i hi
    rw [hLlen] at hi
    rw [hL, getD_range_map _ _ _ (by omega), getD_drop]
  · intro i hi
    exact getD_zipWith_sub L (emaList L signal_period) i hi

theorem calculate_macd_structure_witness :
    (1 < 2 ∧ 2 + 1 ≤ ([1, 2, 3, 4] : List ℚ).length)
    ∧ ∃ macd_line signal_line histogram,
        calculate_macd ([1, 2, 3, 4] : List ℚ) 1 2 1
            = Except.ok (macd_line, signal_line, histogram)
        ∧ macd_line.length = ([1, 2, 3, 4] : List ℚ).length - 2 + 1
        ∧ (∀ i, i < macd_line.length →
            macd_line.getD i 0
              = (emaList ([1, 2, 3, 4] : List ℚ) 1).getD (2 - 1 + i) 0
                  - (emaList ([1, 2, 3, 4] : List ℚ) 2).getD i 0)
        ∧ calculate_ema macd_line 1 = Except.ok signal_line
        ∧ (∀ i, i < histogram.length →
            histogram.getD i 0 = macd_line.getD i 0 - signal_line.getD i 0) :=
  ⟨⟨by decide, by decide⟩,
    calculate_macd_structure ([1, 2, 3, 4] : List ℚ) 1 2 1 (by decide) (by decide)⟩

end AutoTrade
